import Mathlib

/-!
# Verification of the TXB texture decoder (`src/graphics/images/txb.cpp`)

A shallow embedding of the TXB loader: the header field dispatch
(`TXB::readHeader`, encoding-byte branch), the mip-map chain building loop
(`TXB::readHeader`, `for` loop over `mipMapCount`), the pixel payload reader
(`TXB::readData`), the side-channel / TXI tail reader (`TXB::readTXIData`,
`TXB::getTXI`) and the overall `TXB::load` driver.

Machine integers are modelled as `Nat` with explicit `% 2 ^ 32` where a
`uint32` computation can overflow (`width * height * 4` for the BGRA
encoding); `>> 1` and `>> 2` on non-negative machine integers are `/ 2` and
`/ 4`.  The byte stream is modelled by its total size and current position;
exceptions become `Except TXBError`.
-/

namespace TXB

/-- The `uint32` modulus, `2 ^ 32`. -/
def u32 : Nat := 4294967296

/-- The `_format` field: `kPixelFormatBGRA` / `kPixelFormatBGR`. -/
inductive PixelFormat where
  | BGRA
  | BGR
deriving DecidableEq, Repr

/-- The `_formatRaw` field: `kPixelFormatRGBA8` / `kPixelFormatDXT1` /
`kPixelFormatDXT5`. -/
inductive PixelFormatRaw where
  | RGBA8
  | DXT1
  | DXT5
deriving DecidableEq, Repr

/-- The exceptions thrown by `txb.cpp`:
`"Unsupported TXB encoding 0x09"`,
`"Unknown TXB encoding 0x%02X (%dx%d, %d, %d)"` (carrying the raw encoding
byte, width, height, mip-map count and declared data size), and
`Common::kReadError`. -/
inductive TXBError where
  | unsupportedEncoding09
  | unknownEncoding (encoding width height mipMapCount dataSize : Nat)
  | readError
deriving DecidableEq, Repr

/-- The header fields read by `TXB::readHeader` before the encoding dispatch:
`dataSize` (uint32 LE), `width`/`height` (uint16 LE), `encoding` and
`mipMapCount` (single bytes).  Skipped fields are not modelled. -/
structure HeaderFields where
  dataSize : Nat
  width : Nat
  height : Nat
  encoding : Nat
  mipMapCount : Nat
deriving DecidableEq, Repr

/-- Field-width bounds guaranteed by `readUint32LE` / `readUint16LE` /
`readByte`. -/
def HeaderFields.WellFormed (h : HeaderFields) : Prop :=
  h.dataSize < u32 ∧ h.width < 65536 ∧ h.height < 65536 ∧
    h.encoding < 256 ∧ h.mipMapCount < 256

instance (h : HeaderFields) : Decidable h.WellFormed := by
  unfold HeaderFields.WellFormed; infer_instance

/-- The per-encoding data set by the dispatch in `TXB::readHeader`:
format flags plus the two derivation constants `minDataSize` and
`mipMapSize` (the base level size). -/
structure EncodingInfo where
  compressed : Bool
  hasAlpha : Bool
  format : PixelFormat
  formatRaw : PixelFormatRaw
  minDataSize : Nat
  mipMapSize : Nat
deriving DecidableEq, Repr

/-- The encoding dispatch of `TXB::readHeader` (the `if`/`else if` chain on
the encoding byte).  `kEncodingBGRA = 0x04`, `kEncodingDXT1 = 0x0A`,
`kEncodingDXT5 = 0x0C`; `0x09` and every other byte throw.
`width * height * 4` is a `uint32` product and is reduced `% 2 ^ 32`;
the other two size formulas cannot overflow for 16-bit `width`/`height`
but carry the same reduction for faithfulness. -/
def encodingInfo (encoding width height mipMapCount dataSize : Nat) :
    Except TXBError EncodingInfo :=
  if encoding = 0x04 then
    .ok ⟨false, true, .BGRA, .RGBA8, 4, width * height % u32 * 4 % u32⟩
  else if encoding = 0x0A then
    .ok ⟨true, false, .BGR, .DXT1, 8, width * height % u32 / 2⟩
  else if encoding = 0x0C then
    .ok ⟨true, true, .BGRA, .DXT5, 16, width * height % u32⟩
  else if encoding = 0x09 then
    .error .unsupportedEncoding09
  else
    .error (.unknownEncoding encoding width height mipMapCount dataSize)

/-- A mip-map descriptor: the `width`, `height` and `size` fields of a
`MipMap` pushed onto `_mipMaps` (the `data` buffer is filled later by
`readData` and modelled separately). -/
structure MipMap where
  width : Nat
  height : Nat
  size : Nat
deriving DecidableEq, Repr

/-- The mip-map chain building loop of `TXB::readHeader`:

```
for (uint32 i = 0; i < mipMapCount; i++) {
  mipMap->width  = MAX<uint32>(width,  1);
  mipMap->height = MAX<uint32>(height, 1);
  if (((width < 4) || (height < 4)) && (width != height)) break;
  mipMap->size = MAX<uint32>(mipMapSize, minDataSize);
  if (dataSize < mipMap->size) break;   // (the mipMap is dropped)
  dataSize -= mipMap->size;
  _mipMaps.push_back(mipMap);
  width >>= 1; height >>= 1; mipMapSize >>= 2;
  if ((width < 1) && (height < 1)) break;
}
```

The loop counter becomes fuel (the first argument); `dataSize` is the
running remaining budget; `>>= 1` and `>>= 2` on the non-negative `uint32`
values are `/ 2` and `/ 4`.  No `% 2 ^ 32` is needed inside the loop: the
subtraction is guarded by the preceding comparison and the shifts only
shrink their operands. -/
def buildMipMaps : Nat → Nat → Nat → Nat → Nat → Nat → List MipMap
  | 0, _, _, _, _, _ => []
  | fuel + 1, width, height, mipMapSize, minDataSize, dataSize =>
    if (width < 4 ∨ height < 4) ∧ width ≠ height then
      []
    else if dataSize < max mipMapSize minDataSize then
      []
    else if width / 2 < 1 ∧ height / 2 < 1 then
      [⟨max width 1, max height 1, max mipMapSize minDataSize⟩]
    else
      ⟨max width 1, max height 1, max mipMapSize minDataSize⟩ ::
        buildMipMaps fuel (width / 2) (height / 2) (mipMapSize / 4)
          minDataSize (dataSize - max mipMapSize minDataSize)

/-- The same loop with the non-square sub-4 break (the
`if (((width < 4) || (height < 4)) && (width != height)) break;` line)
removed.  Used to state that the break never fires on square inputs:
for `width = height` the two builders agree. -/
def buildMipMapsNoStop4 : Nat → Nat → Nat → Nat → Nat → Nat → List MipMap
  | 0, _, _, _, _, _ => []
  | fuel + 1, width, height, mipMapSize, minDataSize, dataSize =>
    if dataSize < max mipMapSize minDataSize then
      []
    else if width / 2 < 1 ∧ height / 2 < 1 then
      [⟨max width 1, max height 1, max mipMapSize minDataSize⟩]
    else
      ⟨max width 1, max height 1, max mipMapSize minDataSize⟩ ::
        buildMipMapsNoStop4 fuel (width / 2) (height / 2) (mipMapSize / 4)
          minDataSize (dataSize - max mipMapSize minDataSize)

/-- Total pixel payload consumed by a chain. -/
def chainBytes (ms : List MipMap) : Nat := (ms.map MipMap.size).sum

/-- Model of `TXB::readHeader` as a whole, at the header-field level: dispatch on the
encoding byte, then build the mip-map chain.  Returns the encoding info and
the `_mipMaps` contents. -/
def readHeader (h : HeaderFields) : Except TXBError (EncodingInfo × List MipMap) :=
  match encodingInfo h.encoding h.width h.height h.mipMapCount h.dataSize with
  | .error e => .error e
  | .ok info =>
      .ok (info, buildMipMaps h.mipMapCount h.width h.height info.mipMapSize
        info.minDataSize h.dataSize)

/-- The seekable byte stream, abstracted to its total size and current
position (the decoder never inspects payload bytes, only counts them). -/
structure Stream where
  size : Nat
  pos : Nat
deriving DecidableEq, Repr

/-- Model of `TXB::readData`: for each mip map in chain order, allocate `size` bytes
and read them; `txb.read(..., size) != size` (a short read) throws
`Common::kReadError`.  Returns the advanced stream. -/
def readData : List MipMap → Stream → Except TXBError Stream
  | [], s => .ok s
  | m :: ms, s =>
    if s.pos + m.size ≤ s.size then
      readData ms ⟨s.size, s.pos + m.size⟩
    else
      .error .readError

/-- The `_txiData` / `_txiDataSize` pair after `TXB::readTXIData`: whether
the buffer was allocated (non-null) and its size. -/
structure TXIData where
  txiData : Bool
  txiDataSize : Nat
deriving DecidableEq, Repr

/-- Model of `TXB::readTXIData`: `_txiDataSize = txb.size() - txb.pos()`; if zero,
return with `_txiData` still null; otherwise allocate and read that many
bytes (a short read throws `Common::kReadError`). -/
def readTXIData (s : Stream) : Except TXBError (TXIData × Stream) :=
  if s.size - s.pos = 0 then
    .ok (⟨false, 0⟩, s)
  else if s.pos + (s.size - s.pos) ≤ s.size then
    .ok (⟨true, s.size - s.pos⟩, ⟨s.size, s.pos + (s.size - s.pos)⟩)
  else
    .error .readError

/-- Model of `TXB::getTXI`: returns null when `_txiData` is null or `_txiDataSize`
is zero, otherwise a `MemoryReadStream` over the `_txiDataSize` bytes
(modelled by its size). -/
def getTXI (t : TXIData) : Option Nat :=
  if !t.txiData || t.txiDataSize = 0 then none else some t.txiDataSize

/-- Everything the decoder holds when `load()` returns successfully. -/
structure DecodedImage where
  info : EncodingInfo
  mipMaps : List MipMap
  txi : TXIData
deriving DecidableEq, Repr

instance instDecEqExcept {ε α : Type} [DecidableEq ε] [DecidableEq α] :
    DecidableEq (Except ε α) := fun x y =>
  match x, y with
  | .error a, .error b =>
      if h : a = b then isTrue (by rw [h])
      else isFalse (by intro hc; cases hc; exact h rfl)
  | .error _, .ok _ => isFalse (by intro hc; cases hc)
  | .ok _, .error _ => isFalse (by intro hc; cases hc)
  | .ok a, .ok b =>
      if h : a = b then isTrue (by rw [h])
      else isFalse (by intro hc; cases hc; exact h rfl)

/-- The outcome of `TXB::load`, together with whether the input stream was
released.  In the source, `delete _txb; _txb = 0;` runs only after the
`try`/`catch` block completes without an exception; the `catch` re-throws
without deleting `_txb`, and `TXB::~TXB` deletes only `_txiData`. -/
structure LoadResult where
  result : Except TXBError DecodedImage
  streamReleased : Bool
deriving DecidableEq, Repr

/-- Model of `TXB::load` at the header-field level: `readHeader`, `readData`,
`_txb->seek(_dataSize + 128)` (where `_dataSize` is the header's declared
budget, saved before the chain loop mutates its local copy), then
`readTXIData`.  The header occupies the first 128 bytes, so `readData`
starts at position 128; the seek is modelled by restarting `readTXIData`
at position `h.dataSize + 128`. -/
def load (h : HeaderFields) (streamSize : Nat) : LoadResult :=
  match readHeader h with
  | .error e => ⟨.error e, false⟩
  | .ok (info, mipMaps) =>
    match readData mipMaps ⟨streamSize, 128⟩ with
    | .error e => ⟨.error e, false⟩
    | .ok _ =>
      match readTXIData ⟨streamSize, h.dataSize + 128⟩ with
      | .error e => ⟨.error e, false⟩
      | .ok (txi, _) => ⟨.ok ⟨info, mipMaps, txi⟩, true⟩

/-! ## Helper lemmas about the chain builder -/

theorem buildMipMaps_length_le (fuel w h ms mds ds : Nat) :
    (buildMipMaps fuel w h ms mds ds).length ≤ fuel := by
  induction fuel generalizing w h ms ds with
  | zero => simp [buildMipMaps]
  | succ n ih =>
    unfold buildMipMaps
    split
    · simp
    · split
      · simp
      · split
        · simp
        · simpa using Nat.succ_le_succ (ih _ _ _ _)

theorem buildMipMaps_head (fuel w h ms mds ds : Nat) (m : MipMap)
    (hm : (buildMipMaps fuel w h ms mds ds).head? = some m) :
    m.width = max w 1 ∧ m.height = max h 1 := by
  cases fuel with
  | zero => simp [buildMipMaps] at hm
  | succ n =>
    unfold buildMipMaps at hm
    split at hm
    · simp at hm
    · split at hm
      · simp at hm
      · split at hm
        · simp at hm
          subst hm
          exact ⟨rfl, rfl⟩
        · simp at hm
          subst hm
          exact ⟨rfl, rfl⟩

theorem buildMipMaps_mem (fuel w h ms mds ds : Nat) (m : MipMap)
    (hm : m ∈ buildMipMaps fuel w h ms mds ds) :
    1 ≤ m.width ∧ 1 ≤ m.height ∧ mds ≤ m.size := by
  induction fuel generalizing w h ms ds with
  | zero => simp [buildMipMaps] at hm
  | succ n ih =>
    unfold buildMipMaps at hm
    split at hm
    · simp at hm
    · split at hm
      · simp at hm
      · split at hm
        · simp at hm
          subst hm
          exact ⟨le_max_right _ _, le_max_right _ _, le_max_right _ _⟩
        · rcases List.mem_cons.mp hm with h1 | h1
          · subst h1
            exact ⟨le_max_right _ _, le_max_right _ _, le_max_right _ _⟩
          · exact ih _ _ _ _ h1

theorem buildMipMaps_chain (fuel w h ms mds ds : Nat) :
    (buildMipMaps fuel w h ms mds ds).Chain'
      (fun a b => b.width ≤ a.width ∧ b.height ≤ a.height) := by
  induction fuel generalizing w h ms ds with
  | zero => simp [buildMipMaps]
  | succ n ih =>
    unfold buildMipMaps
    split
    · simp
    · split
      · simp
      · split
        · simp
        · refine List.chain'_cons'.mpr ⟨?_, ih _ _ _ _⟩
          intro y hy
          obtain ⟨hw, hh⟩ := buildMipMaps_head _ _ _ _ _ _ y hy
          refine ⟨?_, ?_⟩
          · rw [hw]
            exact max_le_max (Nat.div_le_self w 2) le_rfl
          · rw [hh]
            exact max_le_max (Nat.div_le_self h 2) le_rfl

theorem buildMipMaps_eq_noStop4_of_square (fuel w ms mds ds : Nat) :
    buildMipMaps fuel w w ms mds ds = buildMipMapsNoStop4 fuel w w ms mds ds := by
  induction fuel generalizing w ms ds with
  | zero => rfl
  | succ n ih =>
    unfold buildMipMaps buildMipMapsNoStop4
    rw [if_neg (by simp)]
    split
    · rfl
    · split
      · rfl
      · rw [ih]

theorem readTXIData_eq (sz p : Nat) (hp : p ≤ sz) :
    readTXIData ⟨sz, p⟩ =
      if sz - p = 0 then .ok (⟨false, 0⟩, ⟨sz, p⟩)
      else .ok (⟨true, sz - p⟩, ⟨sz, p + (sz - p)⟩) := by
  unfold readTXIData
  dsimp only
  by_cases hz : sz - p = 0
  · rw [if_pos hz, if_pos hz]
  · rw [if_neg hz, if_neg hz, if_pos (by omega)]

theorem load_error_header (h : HeaderFields) (s : Nat) (e : TXBError)
    (hh : readHeader h = .error e) : load h s = ⟨.error e, false⟩ := by
  unfold load
  rw [hh]

theorem load_ok_header (h : HeaderFields) (s : Nat) (info : EncodingInfo)
    (mips : List MipMap) (hh : readHeader h = .ok (info, mips)) :
    load h s =
      match readData mips ⟨s, 128⟩ with
      | .error e => ⟨.error e, false⟩
      | .ok _ =>
        match readTXIData ⟨s, h.dataSize + 128⟩ with
        | .error e => ⟨.error e, false⟩
        | .ok (txi, _) => ⟨.ok ⟨info, mips, txi⟩, true⟩ := by
  unfold load
  rw [hh]

/-! ## Claim theorems -/

/-- C1, counterexample.  For the header scenario budget = 65536,
width = height = 256, encoding 0x0A (DXT1, base size 256*256/2 = 32768,
min size 8), mip count 9, the chain does NOT have 7 levels consuming
43688 bytes: the non-square sub-4 stop never fires on a square texture,
so the loop runs past 4×4. -/
theorem square256_chain_not_seven :
    (buildMipMaps 9 256 256 (256 * 256 / 2) 8 65536).length ≠ 7 ∧
    chainBytes (buildMipMaps 9 256 256 (256 * 256 / 2) 8 65536) ≠ 43688 := by
  decide

/-- C1, amended.  For the header scenario budget = 65536,
width = height = 256, encoding 0x0A, mip count 9, `readHeader` succeeds
and the chain has exactly 9 levels, with widths
256,128,64,32,16,8,4,2,1 (the 2×2 and 1×1 levels clamped to the minimum
size 8), consuming 43704 bytes of the budget. -/
theorem square256_chain_nine_levels :
    readHeader ⟨65536, 256, 256, 0x0A, 9⟩ =
      .ok (⟨true, false, .BGR, .DXT1, 8, 32768⟩,
        [⟨256, 256, 32768⟩, ⟨128, 128, 8192⟩, ⟨64, 64, 2048⟩,
         ⟨32, 32, 512⟩, ⟨16, 16, 128⟩, ⟨8, 8, 32⟩, ⟨4, 4, 8⟩,
         ⟨2, 2, 8⟩, ⟨1, 1, 8⟩]) ∧
    chainBytes (buildMipMaps 9 256 256 (256 * 256 / 2) 8 65536) = 43704 := by
  decide

/-- C4.  Every successfully parsed header yields a chain in which every
level has width ≥ 1, height ≥ 1 and size ≥ the variant's `minDataSize`,
whose length is at most the declared mip-map count, and whose
(width, height) pairs are non-increasing in both components. -/
theorem mipChain_invariants (h : HeaderFields) (info : EncodingInfo)
    (mips : List MipMap) (hok : readHeader h = .ok (info, mips)) :
    (∀ m ∈ mips, 1 ≤ m.width ∧ 1 ≤ m.height ∧ info.minDataSize ≤ m.size) ∧
    mips.length ≤ h.mipMapCount ∧
    mips.Chain' (fun a b => b.width ≤ a.width ∧ b.height ≤ a.height) := by
  unfold readHeader at hok
  cases he : encodingInfo h.encoding h.width h.height h.mipMapCount h.dataSize with
  | error e => rw [he] at hok; cases hok
  | ok info2 =>
    rw [he] at hok
    simp only [Except.ok.injEq, Prod.mk.injEq] at hok
    obtain ⟨hinfo, hmips⟩ := hok
    subst hinfo
    subst hmips
    exact ⟨fun m hm => buildMipMaps_mem _ _ _ _ _ _ m hm,
      buildMipMaps_length_le _ _ _ _ _ _,
      buildMipMaps_chain _ _ _ _ _ _⟩

/-- C4, witness at the header (budget 8, 4×4, encoding 0x0A, 1 mip). -/
theorem mipChain_invariants_witness :
    (∀ m ∈ [(⟨4, 4, 8⟩ : MipMap)],
      1 ≤ m.width ∧ 1 ≤ m.height ∧
        (EncodingInfo.mk true false .BGR .DXT1 8 8).minDataSize ≤ m.size) ∧
    [(⟨4, 4, 8⟩ : MipMap)].length ≤ (HeaderFields.mk 8 4 4 0x0A 1).mipMapCount ∧
    [(⟨4, 4, 8⟩ : MipMap)].Chain'
      (fun a b => b.width ≤ a.width ∧ b.height ≤ a.height) :=
  mipChain_invariants ⟨8, 4, 4, 0x0A, 1⟩ ⟨true, false, .BGR, .DXT1, 8, 8⟩
    [⟨4, 4, 8⟩] (by decide)

/-- C7.  Chain building is a total function whose result never exceeds the
declared mip-map count (the loop fuel), and for a 1×1 image with enough
budget for the first level and a positive mip count, exactly one level is
produced (the post-append `(width < 1) && (height < 1)` break fires). -/
theorem mipChain_terminates (fuel w h ms mds ds : Nat) :
    (buildMipMaps fuel w h ms mds ds).length ≤ fuel ∧
    (max ms mds ≤ ds →
      buildMipMaps (fuel + 1) 1 1 ms mds ds = [⟨1, 1, max ms mds⟩]) := by
  refine ⟨buildMipMaps_length_le _ _ _ _ _ _, fun hds => ?_⟩
  unfold buildMipMaps
  rw [if_neg (by simp), if_neg (Nat.not_lt.mpr hds), if_pos (by simp)]
  norm_num

/-- C7, witness: a 1×1 DXT1-style level with ample budget. -/
theorem mipChain_terminates_witness :
    buildMipMaps 3 1 1 0 8 100 = [⟨1, 1, max 0 8⟩] :=
  (mipChain_terminates 2 5 7 0 8 100).2 (by decide)

/-- C9.  On a square input the non-square sub-4 break never fires: the
builder agrees with the builder from which that break has been removed,
at every width = height.  Consequently a square chain continues below
4×4: for a 16×16 DXT1-style header it reaches 2×2 and 1×1, with the
sizes of the sub-4 levels clamped up to the minimum 8. -/
theorem square_never_stop4 :
    (∀ fuel w ms mds ds,
      buildMipMaps fuel w w ms mds ds = buildMipMapsNoStop4 fuel w w ms mds ds) ∧
    buildMipMaps 5 16 16 (16 * 16 / 2) 8 10000 =
      [⟨16, 16, 128⟩, ⟨8, 8, 32⟩, ⟨4, 4, 8⟩, ⟨2, 2, 8⟩, ⟨1, 1, 8⟩] :=
  ⟨buildMipMaps_eq_noStop4_of_square, by decide⟩

/-- C5.  Every encoding byte other than 0x04, 0x0A and 0x0C makes header
parsing fail: the sentinel 0x09 with the dedicated
`"Unsupported TXB encoding 0x09"` diagnostic, every other byte with the
`"Unknown TXB encoding ..."` diagnostic carrying the raw byte, width,
height, mip-map count and declared budget; the two diagnostics are
distinct values. -/
theorem unknown_encoding_dispatch (enc w h mc ds : Nat)
    (h4 : enc ≠ 0x04) (hA : enc ≠ 0x0A) (hC : enc ≠ 0x0C) :
    encodingInfo enc w h mc ds =
      .error (if enc = 0x09 then .unsupportedEncoding09
              else .unknownEncoding enc w h mc ds) ∧
    TXBError.unsupportedEncoding09 ≠ TXBError.unknownEncoding enc w h mc ds := by
  constructor
  · unfold encodingInfo
    rw [if_neg h4, if_neg hA, if_neg hC]
    split
    · rfl
    · rfl
  · intro hc
    cases hc

/-- C5, witness at the arbitrary unknown byte 0xFF (next to the sentinel
0x09 handled by the `if` inside the theorem's statement). -/
theorem unknown_encoding_dispatch_witness :
    encodingInfo 0xFF 16 32 3 4096 =
      .error (.unknownEncoding 0xFF 16 32 3 4096) ∧
    encodingInfo 0x09 16 32 3 4096 = .error .unsupportedEncoding09 := by
  constructor
  · have h := (unknown_encoding_dispatch 0xFF 16 32 3 4096
      (by decide) (by decide) (by decide)).1
    simpa using h
  · have h := (unknown_encoding_dispatch 0x09 16 32 3 4096
      (by decide) (by decide) (by decide)).1
    simpa using h

/-- C6.  At any loop step where the non-square sub-4 break does not fire:
if the remaining budget is smaller than the level size
`max mipMapSize minDataSize`, the chain stops there with no level
appended and no error (the builder returns a plain list, never an
error); otherwise the level is appended and the recursion continues on
the budget minus the level size.  Moreover `readHeader` returns `.ok`
whenever the encoding dispatch does, for every width, height, mip count
and budget — early chain termination never raises an error. -/
theorem budget_stop_silent (fuel w h ms mds ds : Nat)
    (hsq : ¬((w < 4 ∨ h < 4) ∧ w ≠ h)) :
    (ds < max ms mds → buildMipMaps (fuel + 1) w h ms mds ds = []) ∧
    (max ms mds ≤ ds →
      buildMipMaps (fuel + 1) w h ms mds ds =
        ⟨max w 1, max h 1, max ms mds⟩ ::
          (if w / 2 < 1 ∧ h / 2 < 1 then []
           else buildMipMaps fuel (w / 2) (h / 2) (ms / 4) mds
             (ds - max ms mds))) ∧
    (∀ hf : HeaderFields, ∀ info : EncodingInfo,
      encodingInfo hf.encoding hf.width hf.height hf.mipMapCount hf.dataSize =
          .ok info →
      readHeader hf =
        .ok (info, buildMipMaps hf.mipMapCount hf.width hf.height
          info.mipMapSize info.minDataSize hf.dataSize)) := by
  refine ⟨fun hds => ?_, fun hds => ?_, fun hf info he => ?_⟩
  · unfold buildMipMaps
    rw [if_neg hsq, if_pos hds]
  · by_cases h2 : w / 2 < 1 ∧ h / 2 < 1
    · rw [if_pos h2]
      unfold buildMipMaps
      rw [if_neg hsq, if_neg (Nat.not_lt.mpr hds), if_pos h2]
    · rw [if_neg h2]
      conv_lhs => unfold buildMipMaps
      rw [if_neg hsq, if_neg (Nat.not_lt.mpr hds), if_neg h2]
  · unfold readHeader
    rw [he]

/-- C6, witness: an 8×8 level of size 32 against a remaining budget of 16
stops the chain silently. -/
theorem budget_stop_silent_witness :
    buildMipMaps 3 8 8 32 8 16 = [] :=
  (budget_stop_silent 2 8 8 32 8 16 (by decide)).1 (by decide)

/-- C8, counterexample.  The BGRA level size is computed in `uint32`
arithmetic: for width = height = 32768 (valid 16-bit field values),
`width * height * 4` overflows to 0, not the mathematical
32768 * 32768 * 4 = 2^32. -/
theorem bgra_size_overflow :
    encodingInfo 0x04 32768 32768 0 0 =
      .ok ⟨false, true, .BGRA, .RGBA8, 4, 0⟩ ∧
    (0 : Nat) ≠ 32768 * 32768 * 4 := by
  constructor
  · rfl
  · decide

/-- C8, amended.  For 16-bit width and height, encoding 0x04 derives
`minDataSize = 4` and `mipMapSize = width * height * 4 % 2^32` (the
`uint32` product, which truncates once `width * height ≥ 2^30` and equals
`width * height * 4` below that); encoding 0x0A derives exactly
`(8, width * height / 2)` and encoding 0x0C exactly
`(16, width * height)`. -/
theorem encoding_size_derivation (w h mc ds : Nat)
    (hw : w < 65536) (hh : h < 65536) :
    encodingInfo 0x04 w h mc ds =
      .ok ⟨false, true, .BGRA, .RGBA8, 4, w * h * 4 % u32⟩ ∧
    encodingInfo 0x0A w h mc ds = .ok ⟨true, false, .BGR, .DXT1, 8, w * h / 2⟩ ∧
    encodingInfo 0x0C w h mc ds = .ok ⟨true, true, .BGRA, .DXT5, 16, w * h⟩ := by
  have hwh : w * h < u32 := by
    calc w * h ≤ 65535 * 65535 := Nat.mul_le_mul (by omega) (by omega)
    _ < u32 := by norm_num [u32]
  simp [encodingInfo, Nat.mod_eq_of_lt hwh]

/-- C8 (amended), witness at 256×256. -/
theorem encoding_size_derivation_witness :
    encodingInfo 0x0A 256 256 0 0 =
      .ok ⟨true, false, .BGR, .DXT1, 8, 256 * 256 / 2⟩ :=
  (encoding_size_derivation 256 256 0 0 (by decide) (by decide)).2.1

/-- C10.  A first level with width or height below 4 and unequal
dimensions (and at least one loop iteration) makes the loop break before
appending anything: the chain is empty, and reading the pixel payload for
the empty chain reads zero bytes and succeeds, leaving the stream where
it was. -/
theorem nonsquare_small_empty_chain (fuel w h ms mds ds : Nat)
    (h4 : w < 4 ∨ h < 4) (hne : w ≠ h) :
    buildMipMaps (fuel + 1) w h ms mds ds = [] ∧
    ∀ s : Stream, readData (buildMipMaps (fuel + 1) w h ms mds ds) s = .ok s := by
  have he : buildMipMaps (fuel + 1) w h ms mds ds = [] := by
    unfold buildMipMaps
    rw [if_pos ⟨h4, hne⟩]
  exact ⟨he, fun s => by rw [he]; rfl⟩

/-- C10, witness at a 2×3 level. -/
theorem nonsquare_small_empty_chain_witness :
    buildMipMaps 5 2 3 100 8 1000 = [] ∧
    ∀ s : Stream, readData (buildMipMaps 5 2 3 100 8 1000) s = .ok s :=
  nonsquare_small_empty_chain 4 2 3 100 8 1000 (by decide) (by decide)

/-- C2, counterexample.  For a header whose encoding byte is the reserved
sentinel 0x09, `load()` fails — and the input stream has NOT been
released: `delete _txb` sits after the `try`/`catch`, the `catch` block
re-throws without deleting `_txb`, and the destructor deletes only
`_txiData`. -/
theorem load_failure_stream_not_released :
    (load ⟨8, 4, 4, 0x09, 1⟩ 200).result = .error .unsupportedEncoding09 ∧
    (load ⟨8, 4, 4, 0x09, 1⟩ 200).streamReleased = false := by
  decide

/-- C2, amended.  The input stream is released exactly when `load()`
returns successfully: on every failure path the stream is not released
by `load()` (ownership stays with the decoder object, whose destructor
does not delete it). -/
theorem load_streamReleased_iff_ok (h : HeaderFields) (s : Nat) :
    (load h s).streamReleased = true ↔ ∃ img, (load h s).result = .ok img := by
  cases hh : readHeader h with
  | error e =>
    rw [load_error_header h s e hh]
    simp
  | ok p =>
    obtain ⟨info, mips⟩ := p
    rw [load_ok_header h s info mips hh]
    cases hd : readData mips ⟨s, 128⟩ with
    | error e => simp
    | ok s1 =>
      cases ht : readTXIData ⟨s, h.dataSize + 128⟩ with
      | error e => simp
      | ok q =>
        obtain ⟨txi, s2⟩ := q
        simp

/-- C3.  When `load()` succeeds on a stream large enough to hold the
header plus the declared budget, the TXI size is exactly
`streamSize - (declaredBudget + 128)` — the seek target depends on the
header's original `_dataSize`, not on the bytes the chain consumed — the
side-channel blob is absent (`getTXI` returns null) precisely when that
remainder is zero, and a present-but-empty blob (`_txiData` allocated
with `_txiDataSize = 0`) cannot occur. -/
theorem txi_blob_absence (h : HeaderFields) (s : Nat)
    (hs : h.dataSize + 128 ≤ s) (img : DecodedImage)
    (hok : (load h s).result = .ok img) :
    img.txi.txiDataSize = s - (h.dataSize + 128) ∧
    (getTXI img.txi = none ↔ s - (h.dataSize + 128) = 0) ∧
    ¬(img.txi.txiData = true ∧ img.txi.txiDataSize = 0) := by
  cases hh : readHeader h with
  | error e =>
    rw [load_error_header h s e hh] at hok
    cases hok
  | ok p =>
    obtain ⟨info, mips⟩ := p
    rw [load_ok_header h s info mips hh] at hok
    cases hd : readData mips ⟨s, 128⟩ with
    | error e =>
      rw [hd] at hok
      simp at hok
    | ok s1 =>
      rw [hd, readTXIData_eq s (h.dataSize + 128) hs] at hok
      by_cases hz : s - (h.dataSize + 128) = 0
      · rw [if_pos hz] at hok
        simp at hok
        subst hok
        exact ⟨by simp [hz], by simp [getTXI, hz], by simp⟩
      · rw [if_neg hz] at hok
        simp at hok
        subst hok
        exact ⟨rfl, by simp [getTXI, hz], by simp [hz]⟩

/-- C3, witness: a 4×4 DXT1 header with budget 8 in a 200-byte stream
leaves 64 tail bytes, which become a present TXI blob. -/
theorem txi_blob_absence_witness :
    (TXIData.mk true 64).txiDataSize = 200 - (8 + 128) ∧
    (getTXI ⟨true, 64⟩ = none ↔ 200 - (8 + 128) = 0) ∧
    ¬((TXIData.mk true 64).txiData = true ∧
      (TXIData.mk true 64).txiDataSize = 0) :=
  txi_blob_absence ⟨8, 4, 4, 0x0A, 1⟩ 200 (by decide)
    ⟨⟨true, false, .BGR, .DXT1, 8, 8⟩, [⟨4, 4, 8⟩], ⟨true, 64⟩⟩ (by decide)

end TXB
